import Mathlib

/-!
Verification development for the simple_reflection C++ library
(`simple_refl.h`, full-featured revision with ArgList, Metadata and
inheritance support).

The embedding below is a shallow model of the runtime-relevant parts of the
library:

* `TypeTag` models `std::type_index`: a process-wide identifier for a
  concrete type, with decidable equality.  `type_index` identifies the
  cv-unqualified type (C++ `typeid` strips top-level cv and reference
  qualifiers), so a `const int` member is stored under the same tag as
  `int`.
* Machine memory is modelled as a total map `Mem : Nat → Nat` from addresses
  to cell values; a C++ object of a registered class sitting at base address
  `b` has its member of byte offset `off` stored in cell `b + off`.  The
  null pointer is address `0`.
* Fallible operations (C++ functions that can `throw`) return
  `Except String α`; the error value models the thrown exception.  Functions
  declared `noexcept` that cannot throw are embedded as total Lean
  functions.
-/

namespace SimpleRefl

/-- Models `std::type_index`.  Two tags are equal iff they denote the same
concrete (cv-unqualified) type. -/
abbrev TypeTag := Nat

/-- Machine addresses; `0` plays the role of `nullptr`. -/
abbrev Addr := Nat

/-- Machine memory: one abstract cell per object location. -/
abbrev Mem := Addr → Nat

/-- Write value `v` to address `addr` (models `*ptr = v`). -/
def writeMem (mem : Mem) (addr v : Nat) : Mem :=
  fun a => if a = addr then v else mem a

/-- The tag of `void`, used by `RawObjectWrapper::none` and by the stored
signature of `void`-returning callables. -/
def voidTag : TypeTag := 0

/-- Models `SharedObjectWrapper`: an owning (`std::shared_ptr<void>`) pointer paired
with a type tag.  Since the wrapper owns its pointee we model the pointee's
value directly as a field. -/
structure SharedObjectWrapper where
  value : Nat
  type_index : TypeTag

/-- Models `SharedObjectWrapper::deref_into<T>()`: if the stored tag equals `T`,
return a copy of the pointee; otherwise return a default-constructed `T()`.
The value of `T()` is supplied as the parameter `defaultT`.  Note that the
mismatch branch does not throw: the function is total. -/
def SharedObjectWrapper.deref_into (w : SharedObjectWrapper) (T : TypeTag)
    (defaultT : Nat) : Nat :=
  if w.type_index = T then w.value else defaultT

/-- Models `RawObjectWrapper`: a non-owning `void*` paired with a type tag. -/
structure RawObjectWrapper where
  object : Addr
  type_index : TypeTag

/-- Models `RawObjectWrapper::none()`: null pointer tagged `typeid(void)`. -/
def RawObjectWrapper.none' : RawObjectWrapper := ⟨0, voidTag⟩

/-- Models `RawObjectWrapper::is_none_type()`. -/
def RawObjectWrapper.is_none_type (w : RawObjectWrapper) : Bool :=
  w.type_index == voidTag

/-- Models `RawObjectWrapper::deref_into<T>()`: if the stored tag equals `T`,
dereference the pointer (read memory at the stored address); otherwise
`throw std::runtime_error("Type mismatch")`. -/
def RawObjectWrapper.deref_into (mem : Mem) (w : RawObjectWrapper)
    (T : TypeTag) : Except String Nat :=
  if w.type_index = T then .ok (mem w.object) else .error "Type mismatch"

/-!
### ArgList

`ArgList` owns a heap-allocated array of argument pointers (`RawArgList`,
i.e. `void**`) together with a parallel vector of type tags.  The backing
array is modelled as `Option (List Addr)`: `some l` is a live allocation
holding the pointers `l`, `none` is a nulled (freed) backing pointer, as
left behind in a moved-from or merged-from `ArgList`.
-/

structure ArgList where
  args : Option (List Addr)
  type_indices : List TypeTag
  size : Nat

/-- Read the `size` pointer entries of the backing array (the C++ code
indexes `args[0] .. args[size-1]`).  On a well-formed `ArgList` the backing
list has length exactly `size`, so this is the whole list. -/
def ArgList.readArgs (a : ArgList) : List Addr :=
  (a.args.getD []).take a.size

/-- The state of an `ArgList` after `delete[] args; args = nullptr;`. -/
def ArgList.invalidate (a : ArgList) : ArgList :=
  { a with args := Option.none }

/-- Models `operator|(ArgList&&, ArgList&&)` (also reached through `operator,` and
the binary `merge_arg_list`): allocate a fresh backing array of
`lhs.size + rhs.size` entries, copy the left operand's pointers followed by
the right operand's, concatenate the tag vectors in the same order, then
free and null both operands' backing arrays.  The result triple is
(merged list, left operand after invalidation, right operand after
invalidation). -/
def ArgList.mergeOp (lhs rhs : ArgList) : ArgList × ArgList × ArgList :=
  (⟨some (lhs.readArgs ++ rhs.readArgs),
    lhs.type_indices ++ rhs.type_indices,
    lhs.size + rhs.size⟩,
   lhs.invalidate, rhs.invalidate)

/-- The binary `merge_arg_list(ArgList&&, ArgList&&)` simply forwards to
`operator|`. -/
def merge_arg_list (lhs rhs : ArgList) : ArgList × ArgList × ArgList :=
  ArgList.mergeOp lhs rhs

/-- The variadic `merge_arg_list(ArgTypes&&...)` (at least two operands):
sums the sizes, copies every operand's pointer entries left to right into a
fresh array, concatenates the tag vectors in the same order, and frees and
nulls every operand's backing array.  Returns the merged list together with
the consumed operands. -/
def merge_arg_list_many (ls : List ArgList) : ArgList × List ArgList :=
  (⟨some (ls.flatMap ArgList.readArgs),
    ls.flatMap ArgList.type_indices,
    (ls.map ArgList.size).sum⟩,
   ls.map ArgList.invalidate)

/-!
### Member registry

`Member` records a byte offset, a size, const-ness and the member's type tag,
plus a generated setter thunk.  The setter captures `offset`, `size` and
`is_const` at `init_setter` time; since `register_member` calls
`init_setter` immediately after constructing the record, the captured values
coincide with the record's fields and the setter is modelled as a function
of the record.
-/

structure Member where
  offset : Nat
  size : Nat
  is_const : Bool
  type_info : TypeTag

/-- The setter thunk produced by `Member::init_setter<MemberType>`: throws
`"Cannot assign to const member"` when the member was registered const
(before touching memory), otherwise copies the value at the argument address
into the member's location `obj + offset`.  (The copy-assignment and the
`memcpy` branch both perform this copy; the model covers the copyable member
types the library is used with.) -/
def Member.setter (m : Member) (mem : Mem) (obj arg : Addr) :
    Except String Mem :=
  if m.is_const then .error "Cannot assign to const member"
  else .ok (writeMem mem (obj + m.offset) (mem arg))

/-!
### Callable registry

`CallableWrapper` stores, per registered overload: const-ness, the return
type tag, the ordered argument type tags (as produced by `typeid`, hence
cv/ref-stripped), the parent class tag (`monostate`, i.e. `none`, for free
functions), and the invocation thunks.  The C++ record holds two thunks
wrapping the same underlying implementation: `method : std::any` (a
`std::function<Ret(void*, Args&&...)>` for methods, `std::function<Ret(Args&&...)>`
for free functions) used by the typed `invoke_*` templates, and
`callable : CommonCallable` used by the `ArgList`-based path.  Both are
modelled by the single behaviour function `callable`; the *type* of the
stored `std::any`, which is what `std::any_cast` checks, is fully determined
by `(parent_type.isSome, return_type, arg_types)`. -/
structure CallableWrapper where
  is_const : Bool
  return_type : TypeTag
  arg_types : List TypeTag
  parent_type : Option TypeTag
  callable : Addr → List Nat → Nat

/-!
### ReflectionBase

The per-type reflection object.  The C++ tables are `std::unordered_map`s;
we model each as an association list looked up by key equality.
`unordered_map::emplace` (used by `register_member`) keeps the existing
entry when the key is already present; `m_funcs[name].emplace_back` appends
to the overload vector in insertion order.
-/

structure ReflectionBase where
  m_offsets : List (String × Member) := []
  m_funcs : List (String × List CallableWrapper) := []
  m_derived_from : List TypeTag := []

/-- Key lookup in the member table (`m_offsets.find(name)`). -/
def memberLookup : List (String × Member) → String → Option Member
  | [], _ => Option.none
  | (k, m) :: rest, name =>
    if k = name then some m else memberLookup rest name

/-- Key lookup in the callable table (`m_funcs.find(name)`). -/
def funcsLookup : List (String × List CallableWrapper) → String →
    Option (List CallableWrapper)
  | [], _ => Option.none
  | (k, l) :: rest, name =>
    if k = name then some l else funcsLookup rest name

/-- Models `m_offsets.emplace(name, member)`: inserts only when the key is absent. -/
def memberEmplace (tbl : List (String × Member)) (name : String)
    (m : Member) : List (String × Member) :=
  match memberLookup tbl name with
  | some _ => tbl
  | Option.none => tbl ++ [(name, m)]

/-- Models `m_funcs[name].emplace_back(fn)`: creates an empty overload vector when
the key is absent, then appends the new overload at the end. -/
def funcsAppend : List (String × List CallableWrapper) → String →
    CallableWrapper → List (String × List CallableWrapper)
  | [], name, fn => [(name, [fn])]
  | (k, l) :: rest, name, fn =>
    if k = name then (k, l ++ [fn]) :: rest
    else (k, l) :: funcsAppend rest name fn

/-- Models `ReflectionBase::register_member<MemberPtr>(name)`: the offset, size,
const-ness and type tag derived from the member pointer are supplied as the
`Member` record. -/
def ReflectionBase.register_member (r : ReflectionBase) (name : String)
    (m : Member) : ReflectionBase :=
  { r with m_offsets := memberEmplace r.m_offsets name m }

/-- Models `ReflectionBase::register_method` (either form) /
`register_function`: appends a `CallableWrapper` to the overload set
registered under `name`. -/
def ReflectionBase.register_method (r : ReflectionBase) (name : String)
    (fn : CallableWrapper) : ReflectionBase :=
  { r with m_funcs := funcsAppend r.m_funcs name fn }

/-- Models `ReflectionBase::derives_from<Parent>()`: appends the parent's tag. -/
def ReflectionBase.derives_from (r : ReflectionBase) (parent : TypeTag) :
    ReflectionBase :=
  { r with m_derived_from := r.m_derived_from ++ [parent] }

/-- First non-`none` entry of a list of options: models a loop that returns
the first successful propagated result. -/
def firstSome : List (Option Nat) → Option Nat
  | [] => Option.none
  | o :: rest =>
    match o with
    | some v => some v
    | Option.none => firstSome rest

/-- Models `ReflectionBase::get_member_ref<MemberType>(object, name)` (typed,
pointer overload, `noexcept`): looks `name` up in the local member table; if
found, returns null on a tag mismatch and otherwise the address
`object + offset`; if the name is absent, recurses through
`get_reflection(base)` into each declared base in declaration order and
returns the first non-null propagated result, or null.

`registry` models the process-wide `ReflectionRegistryBase` (the claims
concern registered base types, for which `get_reflection` succeeds).  The
`fuel` argument bounds the recursion depth through base declarations (the
C++ call stack); every claim is stated with sufficient fuel. -/
def get_member_ref : Nat → (TypeTag → ReflectionBase) → ReflectionBase →
    TypeTag → Addr → String → Option Addr
  | 0, _, _, _, _, _ => Option.none
  | fuel + 1, registry, r, T, obj, name =>
    match memberLookup r.m_offsets name with
    | some m =>
      if m.type_info ≠ T then Option.none
      else some (obj + m.offset)
    | Option.none =>
      firstSome (r.m_derived_from.map fun b =>
        get_member_ref fuel registry (registry b) T obj name)

/-- Models `ReflectionBase::get_const_member_ref<MemberType>(object, name)`
(typed, pointer overload, `noexcept`): same structure as `get_member_ref` —
local lookup, null on a tag mismatch, otherwise `object + offset`, and on a
missing name recursion through `get_reflection(base)` into each declared
base in declaration order, returning the first non-null propagated result.
The C++ code compares the stored tag against
`typeid(remove_const<MemberType>::type)`; since `TypeTag` identifies
cv-unqualified types, `T` here is that stripped tag. -/
def get_const_member_ref : Nat → (TypeTag → ReflectionBase) →
    ReflectionBase → TypeTag → Addr → String → Option Addr
  | 0, _, _, _, _, _ => Option.none
  | fuel + 1, registry, r, T, obj, name =>
    match memberLookup r.m_offsets name with
    | some m =>
      if m.type_info ≠ T then Option.none
      else some (obj + m.offset)
    | Option.none =>
      firstSome (r.m_derived_from.map fun b =>
        get_const_member_ref fuel registry (registry b) T obj name)

/-- First wrapper in the list that is not the none sentinel (its tag
differs from `typeid(void)`), else `RawObjectWrapper::none()`: models the
base-delegation loop of `get_member_wrapped`, which returns the first
propagated result for which `!propagated.is_none_type()`. -/
def firstNonNoneWrapper : List RawObjectWrapper → RawObjectWrapper
  | [] => RawObjectWrapper.none'
  | w :: rest =>
    if w.is_none_type then firstNonNoneWrapper rest else w

/-- Models `ReflectionBase::get_member_wrapped(object, name)`: local lookup
by name; if found, returns a `RawObjectWrapper` pairing `object + offset`
with the member's stored tag (no type parameter, so no tag check); if the
name is absent, recurses into each declared base in declaration order and
returns the first propagated wrapper that is not the none sentinel,
otherwise `RawObjectWrapper::none()`. -/
def get_member_wrapped : Nat → (TypeTag → ReflectionBase) →
    ReflectionBase → Addr → String → RawObjectWrapper
  | 0, _, _, _, _ => RawObjectWrapper.none'
  | fuel + 1, registry, r, obj, name =>
    match memberLookup r.m_offsets name with
    | some m => ⟨obj + m.offset, m.type_info⟩
    | Option.none =>
      firstNonNoneWrapper (r.m_derived_from.map fun b =>
        get_member_wrapped fuel registry (registry b) obj name)

/-- Models `ReflectionBase::is_member_const<MemberType>(name)` (`noexcept`):
false on a missing name or a tag mismatch, otherwise the stored const
flag.  `T` is the tag of `MemberType`; since `typeid` strips cv qualifiers
a const member is stored (and queried) under its non-const type's tag. -/
def ReflectionBase.is_member_const (r : ReflectionBase) (T : TypeTag)
    (name : String) : Bool :=
  match memberLookup r.m_offsets name with
  | some m => if m.type_info ≠ T then false else m.is_const
  | Option.none => false

/-- Models `ReflectionBase::set_member(object, name, RawObjectWrapper)`: throws
`"Member not found"` on a missing name, `"Type mismatch"` when the wrapper's
tag differs from the registered member's tag, and otherwise runs the stored
setter thunk (which itself throws on a const member).  Memory is mutated
only on the `.ok` outcome. -/
def ReflectionBase.set_member (r : ReflectionBase) (obj : Addr)
    (name : String) (value : RawObjectWrapper) (mem : Mem) :
    Except String Mem :=
  match memberLookup r.m_offsets name with
  | some m =>
    if value.type_index ≠ m.type_info then .error "Type mismatch"
    else m.setter mem obj value.object
  | Option.none => .error "Member not found"

/-!
### Invocation
-/

/-- Models `ReflectionBase::is_parameter_match(parameters, actual_args)`: false on
a length mismatch, otherwise an index-by-index equality scan of the two tag
sequences. -/
def is_parameter_match (parameters actual_args : List TypeTag) : Bool :=
  if parameters.length ≠ actual_args.length then false
  else (parameters.zip actual_args).all fun p => p.1 == p.2

/-- The loop body shared by the `ArgList`-based `invoke_method` /
`invoke_function`: scan the overload vector in order and invoke the first
overload whose stored tag sequence satisfies `is_parameter_match` against
the `ArgList`'s tags; `none` when no overload matches. -/
def scanOverloadsArgList : List CallableWrapper → Addr → ArgList →
    Option Nat
  | [], _, _ => Option.none
  | fn :: rest, obj, al =>
    if is_parameter_match fn.arg_types al.type_indices then
      some (fn.callable obj al.readArgs)
    else scanOverloadsArgList rest obj al

/-- Models `ReflectionBase::invoke_method(void* object, name, const ArgList&)`:
table lookup by name, linear scan of the overload set, invoke the first
exact tag-sequence match via `fn.callable(object, args.get())`; throws
`method_not_found_exception(name)` when the name is absent or no overload
matches. -/
def ReflectionBase.invoke_method_arglist (r : ReflectionBase) (obj : Addr)
    (name : String) (al : ArgList) : Except String Nat :=
  match funcsLookup r.m_funcs name with
  | some overloads =>
    match scanOverloadsArgList overloads obj al with
    | some v => .ok v
    | Option.none => .error name
  | Option.none => .error name

/-- Models `ReflectionBase::invoke_function(name, const ArgList&)`: identical scan,
with `nullptr` passed as the object placeholder. -/
def ReflectionBase.invoke_function_arglist (r : ReflectionBase)
    (name : String) (al : ArgList) : Except String Nat :=
  match funcsLookup r.m_funcs name with
  | some overloads =>
    match scanOverloadsArgList overloads 0 al with
    | some v => .ok v
    | Option.none => .error name
  | Option.none => .error name

/-- The `std::any_cast` test performed by the typed `invoke_method`
templates: `can_cast_to<std::function<Ret(void*, Args&&...)>>(fn.method)`
succeeds exactly when the stored `std::any` holds a function of that exact
type, i.e. when the overload is a method (its stored function takes the
leading `void*`), its return tag equals the requested one, and its
(cv/ref-stripped) argument tag sequence equals the requested one. -/
def typedSigMatch (fn : CallableWrapper) (ret : TypeTag)
    (argTags : List TypeTag) : Bool :=
  fn.parent_type.isSome && fn.return_type == ret && fn.arg_types == argTags

/-- Loop body of the typed non-void `invoke_method<Ret, Args...>(void*,
name, args...)`: scan in order, invoke and return at the first overload
whose stored `std::any` casts to the requested function type. -/
def scanOverloadsTyped : List CallableWrapper → Addr → TypeTag →
    List TypeTag → List Nat → Option Nat
  | [], _, _, _, _ => Option.none
  | fn :: rest, obj, ret, argTags, argVals =>
    if typedSigMatch fn ret argTags then some (fn.callable obj argVals)
    else scanOverloadsTyped rest obj ret argTags argVals

/-- Models `ReflectionBase::invoke_method<ReturnType, ArgTypes...>(void* object,
name, args...)` (non-void `ReturnType`): table lookup, scan for the first
overload whose stored signature casts to
`std::function<ReturnType(void*, ArgTypes&&...)>`, invoke it and return its
result; throws `method_not_found_exception(name)` otherwise.  `ret` and
`argTags` are the tags of the explicit template arguments, `argVals` the
argument values. -/
def ReflectionBase.invoke_method_typed (r : ReflectionBase) (obj : Addr)
    (name : String) (ret : TypeTag) (argTags : List TypeTag)
    (argVals : List Nat) : Except String Nat :=
  match funcsLookup r.m_funcs name with
  | some overloads =>
    match scanOverloadsTyped overloads obj ret argTags argVals with
    | some v => .ok v
    | Option.none => .error name
  | Option.none => .error name

/-- Loop of `ReflectionBase::invoke_method<ReturnType>(void* object, name)`
with `ReturnType = void`: each overload whose stored `std::any` casts to
`std::function<void(void*)>` is invoked, and — unlike every sibling
overload of `invoke_method` — the loop body contains no `return`
statement, so the scan continues past a match.  The returned list records
the results of the invocations performed, in order. -/
def runVoidNoArgOverloads : List CallableWrapper → Addr → List Nat
  | [], _ => []
  | fn :: rest, obj =>
    if typedSigMatch fn voidTag [] then
      fn.callable obj [] :: runVoidNoArgOverloads rest obj
    else runVoidNoArgOverloads rest obj

/-- Models `ReflectionBase::invoke_method<ReturnType>(void* object, name)` with
`ReturnType = void` (void, zero-argument form): looks the name up, runs
the loop above, and then — because the loop never returns — always falls
through to `throw method_not_found_exception(name)`.  The first component
is the list of invocations the call performed before throwing; the second
is the outcome visible to the caller. -/
def ReflectionBase.invoke_method_void_noarg (r : ReflectionBase)
    (obj : Addr) (name : String) : List Nat × Except String Unit :=
  match funcsLookup r.m_funcs name with
  | some overloads => (runVoidNoArgOverloads overloads obj, .error name)
  | Option.none => ([], .error name)

/-- Models `ReflectionBase::is_method_const(name)` (`noexcept`): true iff the name
is present in the callable table and at least one overload registered under
it has the const flag set. -/
def ReflectionBase.is_method_const (r : ReflectionBase) (name : String) :
    Bool :=
  match funcsLookup r.m_funcs name with
  | some overloads => overloads.any fun fn => fn.is_const
  | Option.none => false

/-!
### Resolution predicate

`memberResolvable` states, mirroring the lookup structure of
`get_member_ref`, that a name is registered with the requested tag either
locally or in a (transitively) declared base within the given depth. -/
def memberResolvable : Nat → (TypeTag → ReflectionBase) → ReflectionBase →
    TypeTag → String → Bool
  | 0, _, _, _, _ => false
  | fuel + 1, registry, r, T, name =>
    match memberLookup r.m_offsets name with
    | some m => decide (m.type_info = T)
    | Option.none =>
      r.m_derived_from.any fun b =>
        memberResolvable fuel registry (registry b) T name

/-!
### Concrete fixtures

Small registration tables used to evaluate the model on concrete inputs:
a class tag `9`, member/argument tags `1` (int-like) and `2` (float-like),
and a base-class tag `10`.
-/

/-- Tag of an int-like member/argument type. -/
def intTag : TypeTag := 1

/-- Tag of a float-like member/argument type. -/
def floatTag : TypeTag := 2

/-- Tag of the registered class itself. -/
def classTag : TypeTag := 9

/-- Tag of a base class. -/
def baseTag : TypeTag := 10

/-- A zero-argument void method overload (stored `std::any` of type
`std::function<void(void*)>`); its behaviour function returns `1` so that
performed invocations are visible in the invocation log. -/
def voidNoArgCW : CallableWrapper := ⟨false, voidTag, [], some classTag, fun _ _ => 1⟩

/-- Table with one name holding the single void zero-argument overload. -/
def rC1 : ReflectionBase := { m_funcs := [("do_it", [voidNoArgCW])] }

/-- A one-int-argument void method overload whose behaviour echoes the
first argument pointer entry. -/
def pushBackCW : CallableWrapper :=
  ⟨false, voidTag, [intTag], some classTag, fun _ a => a.headD 0⟩

/-- Table with one name holding the one-argument overload. -/
def rC2 : ReflectionBase := { m_funcs := [("push_back", [pushBackCW])] }

/-- Models `overload_add_x(int) -> int`: returns its argument. -/
def addXInt : CallableWrapper :=
  ⟨false, intTag, [intTag], some classTag, fun _ args => args.headD 0⟩

/-- Models `overload_add_x(float) -> float`: returns its argument plus 100, so the
two overloads' results are distinguishable. -/
def addXFloat : CallableWrapper :=
  ⟨false, floatTag, [floatTag], some classTag, fun _ args => args.headD 0 + 100⟩

/-- Table with the two `overload_add_x` overloads registered under one
name, in insertion order int first. -/
def rC7 : ReflectionBase :=
  { m_funcs := [("overload_add_x", [addXInt, addXFloat])] }

/-- The member `x : int` of the base class, at offset 0. -/
def memX : Member := ⟨0, 4, false, intTag⟩

/-- Reflection object of `Base`, with `x` registered. -/
def baseRefl : ReflectionBase := { m_offsets := [("x", memX)] }

/-- Reflection object of `Derived`: no own members, declares `Base` via
`derives_from`. -/
def derivedRefl : ReflectionBase :=
  ReflectionBase.derives_from {} baseTag

/-- Registry mapping the base tag to `Base`'s reflection object. -/
def regC4 : TypeTag → ReflectionBase :=
  fun t => if t = baseTag then baseRefl else {}

/-- A member registered const. -/
def memConst : Member := ⟨0, 4, true, intTag⟩

/-- Table with the const member registered under `"c"`. -/
def rC5 : ReflectionBase := { m_offsets := [("c", memConst)] }

/-- Table with the int member `x` registered, for mismatch probing. -/
def rC6 : ReflectionBase := { m_offsets := [("x", memX)] }

/-- A const-qualified overload. -/
def constCW : CallableWrapper := ⟨true, intTag, [], some classTag, fun _ _ => 0⟩

/-- A non-const overload under the same name. -/
def mutCW : CallableWrapper := ⟨false, intTag, [], some classTag, fun _ _ => 0⟩

/-- Table mixing a non-const and a const overload under one name. -/
def rC9 : ReflectionBase := { m_funcs := [("f", [mutCW, constCW])] }

/-!
### Helper lemmas
-/

lemma funcsLookup_funcsAppend (tbl : List (String × List CallableWrapper))
    (name : String) (fn : CallableWrapper) :
    funcsLookup (funcsAppend tbl name fn) name =
      some ((funcsLookup tbl name).getD [] ++ [fn]) := by
  induction tbl with
  | nil => simp [funcsAppend, funcsLookup]
  | cons kv rest ih =>
    obtain ⟨k, l⟩ := kv
    by_cases h : k = name
    · simp [funcsAppend, funcsLookup, h]
    · simp [funcsAppend, funcsLookup, h, ih]

lemma memberLookup_emplace_fresh (tbl : List (String × Member))
    (name : String) (m : Member)
    (h : memberLookup tbl name = Option.none) :
    memberLookup (memberEmplace tbl name m) name = some m := by
  unfold memberEmplace
  rw [h]
  induction tbl with
  | nil => simp [memberLookup]
  | cons kv rest ih =>
    obtain ⟨k, m'⟩ := kv
    by_cases hk : k = name
    · rw [memberLookup, if_pos hk] at h
      cases h
    · rw [memberLookup, if_neg hk] at h
      simp only [List.cons_append, memberLookup, if_neg hk]
      exact ih h

lemma zip_all_eq : ∀ {p q : List TypeTag}, p.length = q.length →
    ((((p.zip q).all fun x => x.1 == x.2) = true) ↔ p = q)
  | [], [], _ => by simp
  | a :: p, b :: q, h => by
    have hlen : p.length = q.length := by
      simpa using h
    have ih := zip_all_eq hlen
    simp only [List.zip_cons_cons, List.all_cons, Bool.and_eq_true,
      beq_iff_eq, List.cons.injEq, ih]

lemma is_parameter_match_iff (p q : List TypeTag) :
    is_parameter_match p q = true ↔ p = q := by
  by_cases h : p.length = q.length
  · simp only [is_parameter_match, h, ne_eq, not_true_eq_false, if_false,
      zip_all_eq h]
  · simp only [is_parameter_match, ne_eq, h, not_false_eq_true, if_true,
      Bool.false_eq_true, false_iff]
    intro hpq
    exact h (by rw [hpq])

lemma scanOverloadsArgList_isSome_iff (l : List CallableWrapper)
    (obj : Addr) (al : ArgList) :
    (scanOverloadsArgList l obj al).isSome = true ↔
      ∃ fn ∈ l, fn.arg_types = al.type_indices := by
  induction l with
  | nil => simp [scanOverloadsArgList]
  | cons fn rest ih =>
    by_cases h : is_parameter_match fn.arg_types al.type_indices = true
    · simp [scanOverloadsArgList, h]
      exact Or.inl ((is_parameter_match_iff _ _).mp h)
    · have hne : fn.arg_types ≠ al.type_indices := by
        intro he
        exact h ((is_parameter_match_iff _ _).mpr he)
      simp [scanOverloadsArgList, h, ih, hne]

lemma scanOverloadsArgList_first (l₁ l₂ : List CallableWrapper)
    (fn : CallableWrapper) (obj : Addr) (al : ArgList)
    (hskip : ∀ g ∈ l₁, g.arg_types ≠ al.type_indices)
    (hfn : fn.arg_types = al.type_indices) :
    scanOverloadsArgList (l₁ ++ fn :: l₂) obj al =
      some (fn.callable obj al.readArgs) := by
  induction l₁ with
  | nil =>
    simp [scanOverloadsArgList, (is_parameter_match_iff _ _).mpr hfn]
  | cons g rest ih =>
    have hg : g.arg_types ≠ al.type_indices := hskip g (by simp)
    have hgm : ¬ is_parameter_match g.arg_types al.type_indices = true := by
      intro hm
      exact hg ((is_parameter_match_iff _ _).mp hm)
    simp only [List.cons_append, scanOverloadsArgList, hgm, if_false]
    exact ih fun x hx => hskip x (by simp [hx])

lemma firstSome_isSome (l : List (Option Nat)) :
    (firstSome l).isSome = l.any Option.isSome := by
  induction l with
  | nil => simp [firstSome]
  | cons o rest ih =>
    cases o with
    | none => simpa [firstSome] using ih
    | some v => simp [firstSome]

lemma get_member_ref_isSome :
    ∀ (fuel : Nat) (registry : TypeTag → ReflectionBase)
      (r : ReflectionBase) (T : TypeTag) (obj : Addr) (name : String),
      (get_member_ref fuel registry r T obj name).isSome =
        memberResolvable fuel registry r T name
  | 0, _, _, _, _, _ => rfl
  | fuel + 1, registry, r, T, obj, name => by
    simp only [get_member_ref, memberResolvable]
    cases memberLookup r.m_offsets name with
    | some m =>
      by_cases h : m.type_info = T
      · simp [h]
      · simp [h]
    | none =>
      rw [firstSome_isSome]
      have hmap : ∀ l : List TypeTag,
          (l.map fun b =>
              get_member_ref fuel registry (registry b) T obj name).any
              Option.isSome
            = l.any fun b =>
                memberResolvable fuel registry (registry b) T name := by
        intro l
        induction l with
        | nil => rfl
        | cons b bs ih =>
          simp only [List.map_cons, List.any_cons, ih,
            get_member_ref_isSome fuel registry (registry b) T obj name]
      exact hmap r.m_derived_from

/-- Claim C10: `SharedObjectWrapper::deref_into<T>()` returns a copy of the
stored value when the wrapper's tag equals `T`, and on a tag mismatch
silently returns a default-constructed `T()` without throwing; by contrast
`RawObjectWrapper::deref_into<T>()` on the same mismatch throws
`std::runtime_error("Type mismatch")`, and on a tag match dereferences the
stored pointer. -/
theorem c10_shared_vs_raw_deref_into (w : SharedObjectWrapper)
    (rw : RawObjectWrapper) (T : TypeTag) (defaultT : Nat) (mem : Mem) :
    (w.type_index = T → w.deref_into T defaultT = w.value)
    ∧ (w.type_index ≠ T → w.deref_into T defaultT = defaultT)
    ∧ (rw.type_index = T →
        RawObjectWrapper.deref_into mem rw T = .ok (mem rw.object))
    ∧ (rw.type_index ≠ T →
        RawObjectWrapper.deref_into mem rw T = .error "Type mismatch") :=
  ⟨fun h => by simp [SharedObjectWrapper.deref_into, h],
   fun h => by simp [SharedObjectWrapper.deref_into, h],
   fun h => by simp [RawObjectWrapper.deref_into, h],
   fun h => by simp [RawObjectWrapper.deref_into, h]⟩

/-- Witness for C10 at concrete wrappers: a shared wrapper tagged `1`
dereferenced at tag `2` yields the supplied default `7`, while a raw
wrapper tagged `1` dereferenced at tag `2` throws. -/
theorem c10_witness :
    SharedObjectWrapper.deref_into ⟨42, 1⟩ 2 7 = 7
    ∧ RawObjectWrapper.deref_into (fun _ => 0) ⟨5, 1⟩ 2 =
        .error "Type mismatch" :=
  ⟨(c10_shared_vs_raw_deref_into ⟨42, 1⟩ ⟨5, 1⟩ 2 7 (fun _ => 0)).2.1
      (by decide),
   (c10_shared_vs_raw_deref_into ⟨42, 1⟩ ⟨5, 1⟩ 2 7 (fun _ => 0)).2.2.2
      (by decide)⟩

/-- Claim C8: merging two ArgLists (`operator|`, to which `operator,` and
the binary `merge_arg_list` forward, and the variadic `merge_arg_list`)
allocates a backing array of summed length holding the left operand's
pointers followed by the right operand's, concatenates the tag sequences in
the same order, and invalidates both operands by freeing and nulling their
backing storage; the merged list satisfies the pointer-count = tag-count
invariant and the consumed operands own no storage. -/
theorem c8_arglist_merge (lhs rhs : ArgList) (l₁ l₂ : List Addr)
    (h1 : lhs.args = some l₁) (h1s : l₁.length = lhs.size)
    (h1t : lhs.type_indices.length = lhs.size)
    (h2 : rhs.args = some l₂) (h2s : l₂.length = rhs.size)
    (h2t : rhs.type_indices.length = rhs.size) :
    (ArgList.mergeOp lhs rhs).1.args = some (l₁ ++ l₂)
    ∧ (l₁ ++ l₂).length = lhs.size + rhs.size
    ∧ (ArgList.mergeOp lhs rhs).1.type_indices =
        lhs.type_indices ++ rhs.type_indices
    ∧ (ArgList.mergeOp lhs rhs).1.size = lhs.size + rhs.size
    ∧ (ArgList.mergeOp lhs rhs).1.type_indices.length =
        (ArgList.mergeOp lhs rhs).1.size
    ∧ (ArgList.mergeOp lhs rhs).2.1.args = Option.none
    ∧ (ArgList.mergeOp lhs rhs).2.2.args = Option.none
    ∧ merge_arg_list lhs rhs = ArgList.mergeOp lhs rhs
    ∧ (merge_arg_list_many [lhs, rhs]).1.args = some (l₁ ++ l₂)
    ∧ (merge_arg_list_many [lhs, rhs]).1.size = lhs.size + rhs.size
    ∧ (merge_arg_list_many [lhs, rhs]).2 =
        [lhs.invalidate, rhs.invalidate] := by
  have hr1 : lhs.readArgs = l₁ := by
    rw [ArgList.readArgs, h1, Option.getD_some, ← h1s, List.take_length]
  have hr2 : rhs.readArgs = l₂ := by
    rw [ArgList.readArgs, h2, Option.getD_some, ← h2s, List.take_length]
  refine ⟨?_, ?_, rfl, rfl, ?_, rfl, rfl, rfl, ?_, ?_, ?_⟩
  · simp [ArgList.mergeOp, hr1, hr2]
  · simp [List.length_append, h1s, h2s]
  · simp [ArgList.mergeOp, List.length_append, h1t, h2t]
  · simp [merge_arg_list_many, hr1, hr2]
  · simp [merge_arg_list_many]
  · simp [merge_arg_list_many]

/-- Witness for C8 at concrete ArgLists: merging a two-entry and a
one-entry list yields the concatenated backing array and tag sequence, and
both operands come back with nulled storage. -/
theorem c8_witness :
    (ArgList.mergeOp ⟨some [11, 12], [1, 2], 2⟩ ⟨some [13], [3], 1⟩).1.args
        = some [11, 12, 13]
    ∧ (ArgList.mergeOp ⟨some [11, 12], [1, 2], 2⟩
        ⟨some [13], [3], 1⟩).1.type_indices = [1, 2, 3]
    ∧ (ArgList.mergeOp ⟨some [11, 12], [1, 2], 2⟩
        ⟨some [13], [3], 1⟩).2.1.args = Option.none
    ∧ (ArgList.mergeOp ⟨some [11, 12], [1, 2], 2⟩
        ⟨some [13], [3], 1⟩).2.2.args = Option.none := by
  have h := c8_arglist_merge ⟨some [11, 12], [1, 2], 2⟩ ⟨some [13], [3], 1⟩
    [11, 12] [13] rfl rfl rfl rfl rfl rfl
  exact ⟨h.1, h.2.2.1, h.2.2.2.2.2.1, h.2.2.2.2.2.2.1⟩

/-- Claim C1 (code bug): the claim states that a typed invocation throws
`method_not_found_exception` iff no registered overload matches, and that a
matching overload is invoked exactly once with the call returning normally —
in particular that `invoke_method<void>(object, name)` on a name registered
with a zero-argument void overload completes without throwing.  In the
void zero-argument dispatcher the loop body lacks a `return`, so the code
invokes the matching overload (the invocation log is `[1]`, nonempty) and
then still falls through to `throw method_not_found_exception(name)`; the
final conjunct shows this dispatcher's outcome is the thrown exception for
every table, object and name. -/
theorem c1_void_noarg_invokes_then_throws :
    rC1.invoke_method_void_noarg 7 "do_it" = ([1], Except.error "do_it")
    ∧ ∀ (r : ReflectionBase) (obj : Addr) (name : String),
        (r.invoke_method_void_noarg obj name).2 = Except.error name := by
  constructor
  · simp [rC1, ReflectionBase.invoke_method_void_noarg, funcsLookup,
      runVoidNoArgOverloads, typedSigMatch, voidNoArgCW, voidTag]
  · intro r obj name
    unfold ReflectionBase.invoke_method_void_noarg
    cases funcsLookup r.m_funcs name <;> rfl

/-- Claim C2: for the `ArgList`-based `invoke_method`/`invoke_function`,
the overload set under the name is scanned linearly in insertion order
(registration appends at the end); an overload can be invoked iff its
stored tag sequence equals the `ArgList`'s tag sequence element-for-element
(`is_parameter_match` is exact sequence equality — same length, same tags,
same order); the first matching overload is invoked; and when no overload
matches (or the name is absent) the call throws
`method_not_found_exception(name)`.  `invoke_function` is the same scan
with a null object placeholder. -/
theorem c2_arglist_exact_first_match (r : ReflectionBase) (obj : Addr)
    (name : String) (al : ArgList) :
    (∀ p q : List TypeTag, is_parameter_match p q = true ↔ p = q)
    ∧ ((∃ v, r.invoke_method_arglist obj name al = .ok v) ↔
        ∃ overloads, funcsLookup r.m_funcs name = some overloads ∧
          ∃ fn ∈ overloads, fn.arg_types = al.type_indices)
    ∧ (∀ (l₁ l₂ : List CallableWrapper) (fn : CallableWrapper),
        funcsLookup r.m_funcs name = some (l₁ ++ fn :: l₂) →
        (∀ g ∈ l₁, g.arg_types ≠ al.type_indices) →
        fn.arg_types = al.type_indices →
        r.invoke_method_arglist obj name al =
          .ok (fn.callable obj al.readArgs))
    ∧ ((∀ overloads, funcsLookup r.m_funcs name = some overloads →
          ∀ fn ∈ overloads, fn.arg_types ≠ al.type_indices) →
        r.invoke_method_arglist obj name al = .error name)
    ∧ r.invoke_function_arglist name al = r.invoke_method_arglist 0 name al
    ∧ (∀ fn, funcsLookup (r.register_method name fn).m_funcs name =
        some ((funcsLookup r.m_funcs name).getD [] ++ [fn])) := by
  refine ⟨is_parameter_match_iff, ?_, ?_, ?_, ?_, ?_⟩
  · unfold ReflectionBase.invoke_method_arglist
    cases hlk : funcsLookup r.m_funcs name with
    | none => simp
    | some overloads =>
      have hiff := scanOverloadsArgList_isSome_iff overloads obj al
      cases hscan : scanOverloadsArgList overloads obj al with
      | none =>
        rw [hscan] at hiff
        simp only [Option.isSome_none, Bool.false_eq_true, false_iff] at hiff
        simp [hscan, hiff]
      | some v =>
        rw [hscan] at hiff
        simp only [Option.isSome_some, true_iff] at hiff
        simp [hscan, hiff]
  · intro l₁ l₂ fn hlk hskip hfn
    unfold ReflectionBase.invoke_method_arglist
    rw [hlk]
    simp only [scanOverloadsArgList_first l₁ l₂ fn obj al hskip hfn]
  · intro hnone
    unfold ReflectionBase.invoke_method_arglist
    cases hlk : funcsLookup r.m_funcs name with
    | none => rfl
    | some overloads =>
      have hiff := scanOverloadsArgList_isSome_iff overloads obj al
      cases hscan : scanOverloadsArgList overloads obj al with
      | none => simp [hscan]
      | some v =>
        rw [hscan] at hiff
        simp only [Option.isSome_some, true_iff] at hiff
        obtain ⟨g, hg, hgeq⟩ := hiff
        exact absurd hgeq (hnone overloads hlk g hg)
  · rfl
  · intro fn
    exact funcsLookup_funcsAppend r.m_funcs name fn

/-- Witness for C2 at a concrete table: the single registered one-int
overload is invoked on a tag-matching `ArgList` (returning the argument
pointer entry `50`), while an `ArgList` with a mismatching tag sequence
makes the call throw. -/
theorem c2_witness :
    rC2.invoke_method_arglist 7 "push_back" ⟨some [50], [intTag], 1⟩ =
      .ok 50
    ∧ rC2.invoke_method_arglist 7 "push_back" ⟨some [50], [floatTag], 1⟩ =
      .error "push_back" := by
  constructor
  · have h := (c2_arglist_exact_first_match rC2 7 "push_back"
      ⟨some [50], [intTag], 1⟩).2.2.1 [] [] pushBackCW
      (by simp [rC2, funcsLookup]) (by simp) rfl
    simpa [ArgList.readArgs, pushBackCW] using h
  · have h := (c2_arglist_exact_first_match rC2 7 "push_back"
      ⟨some [50], [floatTag], 1⟩).2.2.2.1
    apply h
    intro overloads hlk fn hfn
    simp only [rC2, funcsLookup, if_pos rfl] at hlk
    cases hlk
    simp only [List.mem_singleton] at hfn
    subst hfn
    simp [pushBackCW, intTag, floatTag]

/-- Claim C3: after registering a member under a fresh name,
`get_member_ref<T>` with `T` equal to the member's declared type returns
the non-null pointer `object + offset` to the instance's member, so that a
read through the pointer sees the member's current value (the member of an
object at base `obj` lives in cell `obj + offset`), and a write through
the pointer updates that cell — and only that cell — so subsequent reads,
direct or through reflection, see the new value. -/
theorem c3_member_round_trip (r : ReflectionBase)
    (registry : TypeTag → ReflectionBase) (name : String) (m : Member)
    (fuel : Nat) (obj : Addr) (mem : Mem) (v : Nat)
    (hfresh : memberLookup r.m_offsets name = Option.none)
    (hobj : 0 < obj) :
    memberLookup (r.register_member name m).m_offsets name = some m
    ∧ get_member_ref (fuel + 1) registry (r.register_member name m)
        m.type_info obj name = some (obj + m.offset)
    ∧ obj + m.offset ≠ 0
    ∧ writeMem mem (obj + m.offset) v (obj + m.offset) = v
    ∧ (∀ a, a ≠ obj + m.offset → writeMem mem (obj + m.offset) v a = mem a) := by
  have hlk : memberLookup (r.register_member name m).m_offsets name = some m :=
    memberLookup_emplace_fresh r.m_offsets name m hfresh
  refine ⟨hlk, ?_, ?_, ?_, ?_⟩
  · simp [get_member_ref, hlk]
  · exact Nat.pos_iff_ne_zero.mp
      (Nat.lt_of_lt_of_le hobj (Nat.le_add_right obj m.offset))
  · simp [writeMem]
  · intro a ha
    simp [writeMem, ha]

/-- Witness for C3: registering an int-tagged member at offset 4 on an
empty table and asking for it at tag `intTag` on the object at address 100
yields the pointer 104; writing 9 through it makes the cell read back 9. -/
theorem c3_witness :
    get_member_ref 1 (fun _ => {})
        (ReflectionBase.register_member {} "x" ⟨4, 4, false, intTag⟩)
        intTag 100 "x" = some 104
    ∧ writeMem (fun _ => 0) 104 9 104 = 9 := by
  have h := c3_member_round_trip {} (fun _ => {}) "x" ⟨4, 4, false, intTag⟩
    0 100 (fun _ => 0) 9 rfl (by decide)
  exact ⟨h.2.1, h.2.2.2.1⟩

/-- Claim C4: when a member name is absent from the local member table,
each of the three member lookups — `get_member_ref`,
`get_const_member_ref` and `get_member_wrapped` — recurses into each base
declared via `derives_from`, in declaration order, returning the first
non-null result (for the wrapped lookup, the first non-none-sentinel
wrapper); in the concrete Derived/Base scenario, `Derived` registers no
member but declares `derives_from<Base>()`, and looking `"x"` up on a
derived instance succeeds through `Base`'s table by all three lookups. -/
theorem c4_inheritance_delegation (fuel : Nat)
    (registry : TypeTag → ReflectionBase) (r : ReflectionBase)
    (T : TypeTag) (obj : Addr) (name : String)
    (hmiss : memberLookup r.m_offsets name = Option.none) :
    get_member_ref (fuel + 1) registry r T obj name
      = firstSome (r.m_derived_from.map fun b =>
          get_member_ref fuel registry (registry b) T obj name)
    ∧ get_const_member_ref (fuel + 1) registry r T obj name
      = firstSome (r.m_derived_from.map fun b =>
          get_const_member_ref fuel registry (registry b) T obj name)
    ∧ get_member_wrapped (fuel + 1) registry r obj name
      = firstNonNoneWrapper (r.m_derived_from.map fun b =>
          get_member_wrapped fuel registry (registry b) obj name)
    ∧ get_member_ref 2 regC4 derivedRefl intTag obj "x"
      = some (obj + memX.offset)
    ∧ get_const_member_ref 2 regC4 derivedRefl intTag obj "x"
      = some (obj + memX.offset)
    ∧ get_member_wrapped 2 regC4 derivedRefl obj "x"
      = ⟨obj + memX.offset, intTag⟩ := by
  refine ⟨?_, ?_, ?_, ?_, ?_, ?_⟩
  · simp [get_member_ref, hmiss]
  · simp [get_const_member_ref, hmiss]
  · simp [get_member_wrapped, hmiss]
  · simp [get_member_ref, derivedRefl, ReflectionBase.derives_from, regC4,
      baseRefl, memX, memberLookup, firstSome, intTag, baseTag]
  · simp [get_const_member_ref, derivedRefl, ReflectionBase.derives_from,
      regC4, baseRefl, memX, memberLookup, firstSome, intTag, baseTag]
  · simp [get_member_wrapped, derivedRefl, ReflectionBase.derives_from,
      regC4, baseRefl, memX, memberLookup, firstNonNoneWrapper,
      RawObjectWrapper.is_none_type, RawObjectWrapper.none', intTag,
      baseTag, voidTag]

/-- Witness for C4: on the concrete Derived/Base tables, the lookup of
`"x"` (registered only on `Base`, at offset 0) on the derived instance at
address 50 returns the pointer 50, by `get_member_ref`,
`get_const_member_ref` and `get_member_wrapped` alike (the latter carrying
the stored int tag). -/
theorem c4_witness :
    get_member_ref 2 regC4 derivedRefl intTag 50 "x" = some 50
    ∧ get_const_member_ref 2 regC4 derivedRefl intTag 50 "x" = some 50
    ∧ get_member_wrapped 2 regC4 derivedRefl 50 "x" = ⟨50, intTag⟩ := by
  have h := c4_inheritance_delegation 1 regC4 derivedRefl intTag 50 "x"
    rfl
  exact ⟨by simpa [memX] using h.2.2.2.1,
    by simpa [memX] using h.2.2.2.2.1,
    by simpa [memX] using h.2.2.2.2.2⟩

/-- Claim C5: a write to a member registered const always throws — both
through the generated setter thunk (which throws before touching memory)
and through `set_member`, which on a const member either rejects the value
tag or reaches the throwing setter; `set_member` also throws
`"Type mismatch"` when the supplied wrapper's tag differs from the
registered member tag and `"Member not found"` on a missing name, mutating
nothing in any error case (memory is produced only on the `.ok` outcome);
and `is_member_const`, queried with the member's (non-const-qualified) type
tag, reports true for that member. -/
theorem c5_const_enforcement (r : ReflectionBase) (name : String)
    (m : Member) (obj arg : Addr) (value : RawObjectWrapper) (mem : Mem) :
    (m.is_const = true →
      m.setter mem obj arg = .error "Cannot assign to const member")
    ∧ (memberLookup r.m_offsets name = some m → m.is_const = true →
        ∃ e, r.set_member obj name value mem = .error e)
    ∧ (memberLookup r.m_offsets name = some m →
        value.type_index ≠ m.type_info →
        r.set_member obj name value mem = .error "Type mismatch")
    ∧ (memberLookup r.m_offsets name = Option.none →
        r.set_member obj name value mem = .error "Member not found")
    ∧ (memberLookup r.m_offsets name = some m → m.is_const = true →
        r.is_member_const m.type_info name = true) := by
  refine ⟨?_, ?_, ?_, ?_, ?_⟩
  · intro hc
    simp [Member.setter, hc]
  · intro hlk hc
    unfold ReflectionBase.set_member
    rw [hlk]
    by_cases hty : value.type_index = m.type_info
    · simp [hty, Member.setter, hc]
    · simp [hty]
  · intro hlk hty
    unfold ReflectionBase.set_member
    rw [hlk]
    simp [hty]
  · intro hlk
    unfold ReflectionBase.set_member
    rw [hlk]
  · intro hlk hc
    simp [ReflectionBase.is_member_const, hlk, hc]

/-- Witness for C5 on the concrete const member registered under `"c"`:
the setter thunk throws the const error, a tag-matching `set_member` also
throws it, a mismatched tag throws the type error, and `is_member_const`
at the member's tag reports true. -/
theorem c5_witness :
    Member.setter memConst (fun _ => 0) 10 55 =
      .error "Cannot assign to const member"
    ∧ rC5.set_member 10 "c" ⟨55, floatTag⟩ (fun _ => 0) =
      .error "Type mismatch"
    ∧ rC5.set_member 10 "zzz" ⟨55, intTag⟩ (fun _ => 0) =
      .error "Member not found"
    ∧ rC5.is_member_const intTag "c" = true := by
  have h := c5_const_enforcement rC5 "c" memConst 10 55 ⟨55, floatTag⟩
    (fun _ => 0)
  have h2 := c5_const_enforcement rC5 "zzz" memConst 10 55 ⟨55, intTag⟩
    (fun _ => 0)
  refine ⟨h.1 rfl, ?_, ?_, ?_⟩
  · exact h.2.2.1 (by simp [rC5, memberLookup])
      (by simp [memConst, intTag, floatTag])
  · exact h2.2.2.2.1 (by simp [rC5, memberLookup])
  · exact h.2.2.2.2 (by simp [rC5, memberLookup]) rfl

/-- Claim C6: the typed `get_member_ref<W>` returns null whenever the name
is registered locally with a declared type tag different from `W` (no base
delegation is attempted in that case), and returns null whenever the name
resolves neither locally nor through declared bases; the lookup is total
(`noexcept`, embedded as a total function into `Option`) and a non-null
result exists exactly when some reachable table registers the name at tag
`W`. -/
theorem c6_type_mismatch_safety (fuel : Nat)
    (registry : TypeTag → ReflectionBase) (r : ReflectionBase)
    (W : TypeTag) (obj : Addr) (name : String) :
    (∀ m, memberLookup r.m_offsets name = some m → m.type_info ≠ W →
        get_member_ref (fuel + 1) registry r W obj name = Option.none)
    ∧ (get_member_ref fuel registry r W obj name).isSome
        = memberResolvable fuel registry r W name
    ∧ (memberResolvable fuel registry r W name = false →
        get_member_ref fuel registry r W obj name = Option.none) := by
  refine ⟨?_, get_member_ref_isSome fuel registry r W obj name, ?_⟩
  · intro m hlk hty
    simp [get_member_ref, hlk, hty]
  · intro hres
    have h := get_member_ref_isSome fuel registry r W obj name
    rw [hres] at h
    cases hg : get_member_ref fuel registry r W obj name with
    | none => rfl
    | some p =>
      rw [hg] at h
      cases h

/-- Witness for C6 on the concrete table registering `x` at the int tag:
the float-tagged request for `"x"` and the request for an unregistered
name both return null. -/
theorem c6_witness :
    get_member_ref 1 (fun _ => {}) rC6 floatTag 7 "x" = Option.none
    ∧ get_member_ref 1 (fun _ => {}) rC6 intTag 7 "zzz" = Option.none := by
  constructor
  · exact (c6_type_mismatch_safety 0 (fun _ => {}) rC6 floatTag 7 "x").1
      memX (by simp [rC6, memberLookup]) (by simp [memX, intTag, floatTag])
  · exact (c6_type_mismatch_safety 1 (fun _ => {}) rC6 intTag 7 "zzz").2.2
      (by simp [memberResolvable, rC6, memberLookup])

/-- Claim C7: with two method overloads registered under one name whose
argument-type signatures are disjoint, a typed invocation whose requested
return/argument tags are overload `a`'s dispatches to `a`'s implementation
and returns `a`'s result, and one requesting `b`'s tags dispatches to `b`,
never conflating the two — the `std::any_cast` match admits only the
overload whose stored signature equals the requested one. -/
theorem c7_overload_determinism (r : ReflectionBase) (name : String)
    (a b : CallableWrapper) (obj : Addr) (argValsA argValsB : List Nat)
    (hlk : funcsLookup r.m_funcs name = some [a, b])
    (ha : a.parent_type.isSome = true) (hb : b.parent_type.isSome = true)
    (hdisj : a.arg_types ≠ b.arg_types) :
    r.invoke_method_typed obj name a.return_type a.arg_types argValsA
      = .ok (a.callable obj argValsA)
    ∧ r.invoke_method_typed obj name b.return_type b.arg_types argValsB
      = .ok (b.callable obj argValsB) := by
  constructor
  · unfold ReflectionBase.invoke_method_typed
    rw [hlk]
    simp [scanOverloadsTyped, typedSigMatch, ha]
  · unfold ReflectionBase.invoke_method_typed
    rw [hlk]
    simp [scanOverloadsTyped, typedSigMatch, ha, hb, hdisj]

/-- Witness for C7 on the concrete `overload_add_x` table: the int-tagged
request `[intTag] -> intTag` with argument 1 executes the int overload
(result 1), and the float-tagged request with argument 7 executes the
float overload (result 107), not conflated. -/
theorem c7_witness :
    rC7.invoke_method_typed 3 "overload_add_x" intTag [intTag] [1] = .ok 1
    ∧ rC7.invoke_method_typed 3 "overload_add_x" floatTag [floatTag] [7]
      = .ok 107 := by
  have h := c7_overload_determinism rC7 "overload_add_x" addXInt addXFloat
    3 [1] [7] (by simp [rC7, funcsLookup]) rfl rfl
    (by simp [addXInt, addXFloat, intTag, floatTag])
  exact ⟨h.1, h.2⟩

/-- Claim C9: `is_method_const(name)` returns true iff the name is present
in the callable table and at least one overload registered under it is
const-qualified (a name mixing const and non-const overloads reports
const); it returns false for an absent name and for a name with an empty
overload set; the function is `noexcept` and embedded as a total Boolean
function. -/
theorem c9_is_method_const_any_overload (r : ReflectionBase)
    (name : String) :
    (r.is_method_const name = true ↔
      ∃ overloads, funcsLookup r.m_funcs name = some overloads ∧
        ∃ fn ∈ overloads, fn.is_const = true)
    ∧ (funcsLookup r.m_funcs name = Option.none →
        r.is_method_const name = false)
    ∧ (funcsLookup r.m_funcs name = some [] →
        r.is_method_const name = false) := by
  refine ⟨?_, ?_, ?_⟩
  · unfold ReflectionBase.is_method_const
    cases hlk : funcsLookup r.m_funcs name with
    | none => simp
    | some overloads => simp [List.any_eq_true]
  · intro hlk
    unfold ReflectionBase.is_method_const
    rw [hlk]
  · intro hlk
    unfold ReflectionBase.is_method_const
    rw [hlk]
    rfl

/-- Witness for C9: the table registering a non-const and a const overload
under `"f"` reports `"f"` const, and reports an unregistered name `"g"`
non-const. -/
theorem c9_witness :
    rC9.is_method_const "f" = true ∧ rC9.is_method_const "g" = false := by
  constructor
  · exact (c9_is_method_const_any_overload rC9 "f").1.mpr
      ⟨[mutCW, constCW], by simp [rC9, funcsLookup],
       constCW, by simp, rfl⟩
  · exact (c9_is_method_const_any_overload rC9 "g").2.1
      (by simp [rC9, funcsLookup])

end SimpleRefl
